import Mathlib

/-! wechat_pay: request signing and response verification

A shallow embedding of `src/wechat_pay/payment.go`.

* `XmlMap` (`map[string]string`) is an association list read through `XmlMap.get`
  (Go's `m[k]`, the empty string when the key is absent), `XmlMap.set` (`m[k] = v`)
  and `XmlMap.delete` (`delete(m, k)`).
* Go maps are references: a method that mutates its argument returns, next to its
  Go results, the state of that map after the call.
* A Go `error` is an `Error` value, read through `Error.text` (Go's `err.Error()`);
  `nil` is `none`.
* What `payment.go` imports but does not define (package `paysdk`, `encoding/xml`,
  the URL constants of the package) is collected in `Ext` and is a parameter of every
  operation.
-/

namespace WechatPay

/-- The Go type `XmlMap`, a `map[string]string`, as an association list. The first entry
with a given key is the one the map holds for that key. -/
abbrev XmlMap := List (String × String)

namespace XmlMap

/-- The comma-ok form of a map read: the value under `k`, or `none` when absent. -/
def find? (m : XmlMap) (k : String) : Option String := List.lookup k m

/-- Go's `m[k]`: the value under `k`, and the empty string when `k` is absent. -/
def get (m : XmlMap) (k : String) : String := (List.lookup k m).getD ""

/-- Go's `delete(m, k)`. -/
def delete (m : XmlMap) (k : String) : XmlMap := List.filter (fun e => e.1 != k) m

/-- Go's `m[k] = v`. -/
def set (m : XmlMap) (k v : String) : XmlMap := (k, v) :: delete m k

end XmlMap

/-- A Go `error` value: either built by `fmt.Errorf(format, args...)` in `payment.go`
(the format string and the operands are recorded as the call passes them; `Error.text`
renders the call), or produced by an external collaborator and passed through. -/
inductive Error where
  | errorf (format : String) (args : List XmlMap)
  | external (msg : String)
  deriving DecidableEq

/-- Stands for `tls.Config` with its `Certificates`. -/
structure TlsConfig where
  Certificates : List (String × String)
  deriving DecidableEq

/-- The Go struct `Pay`; `tlsConfig` is a pointer, `none` is `nil`. -/
structure Pay where
  AppId : String
  MchId : String
  Key : String
  SignType : String
  tlsConfig : Option TlsConfig
  isSandBox : Bool

/-- Raw response bytes. -/
abbrev Bytes := List Nat

/-- Everything `payment.go` uses without defining it: the keyed hash and the random
source behind package `paysdk`, its two transports, `xml.Unmarshal` into an `XmlMap`,
and the URL constants of package `wechat_pay`. -/
structure Ext where
  /-- The constant `paysdk.SignTypeMD5`. -/
  SignTypeMD5 : String
  /-- The selected hash: algorithm selector, shared secret, text to hash; a Go
  `(string, error)`. -/
  digest : String → String → String → String × Option Error
  /-- The random source: the character drawn at each position of a nonce. -/
  entropy : Nat → Char
  /-- The function `paysdk.PostXML(url, req)`. -/
  PostXML : String → XmlMap → Except Error Bytes
  /-- The function `paysdk.PostXMLOverTLS(url, tlsConfig, req)`. -/
  PostXMLOverTLS : String → Option TlsConfig → XmlMap → Except Error Bytes
  /-- The call `xml.Unmarshal(resp, &result)` on an empty `XmlMap`. -/
  Unmarshal : Bytes → Except Error XmlMap
  DomainApi : String
  UnifiedorderUrlSuffix : String
  SandboxUnifiedorderUrlSuffix : String
  RefundUrlSuffix : String
  SandboxRefundUrlSuffix : String
  TransfersUrlSuffix : String
  SandboxTransfersUrlSuffix : String
  GettransferinfoUrlSuffix : String
  SandboxGettransferinfoUrlSuffix : String

/-! ## Package `fmt`, for a call without operands -/

/-- The function `parsenum` of package `fmt`: the decimal number at the head of the text,
whether one was read, and the text left. A number that grows past a million gives up and
swallows the rest. -/
def parsenum : Nat → Bool → List Char → Nat × Bool × List Char
  | num, isnum, [] => (num, isnum, [])
  | num, isnum, c :: cs =>
    if 48 ≤ c.toNat ∧ c.toNat ≤ 57 then
      if 1000000 < num then (0, false, [])
      else parsenum (num * 10 + (c.toNat - 48)) true cs
    else (num, isnum, c :: cs)

/-- The function `parseArgNumber` of package `fmt` on a text that starts with `[`: how
many characters the bracketed index takes, and whether it is a well-formed number. -/
def parseArgNumber (cs : List Char) : Nat × Bool :=
  if cs.length < 3 then (1, false)
  else
    let inner := cs.tail.takeWhile (fun c => c != ']')
    if inner.length = cs.tail.length then (1, false)
    else
      let r := parsenum 0 false inner
      (inner.length + 2, r.2.1 && r.2.2.isEmpty)

/-- The method `argNumber` of package `fmt` when the call has no operands: the text left,
whether an index was found, and whether a bracket was met (with no operands every index
is out of range, which marks the verb as badly indexed). -/
def argNumber (cs : List Char) : List Char × Bool × Bool :=
  match cs with
  | '[' :: _ => (cs.drop (parseArgNumber cs).1, (parseArgNumber cs).2, true)
  | _ => (cs, false, false)

/-- The flag characters after a `%`. -/
def skipFlags : List Char → List Char
  | [] => []
  | c :: cs =>
    if c = '#' ∨ c = '0' ∨ c = '+' ∨ c = '-' ∨ c = ' ' then skipFlags cs else c :: cs

/-- The width part of a verb: what is written, the text left, whether the last item was
an index. -/
def verbWidth (cs : List Char) (afterIndex : Bool) : List Char × List Char × Bool :=
  match cs with
  | '*' :: rest => ("%!(BADWIDTH)".data, rest, false)
  | _ => ([], (parsenum 0 false cs).2.2, afterIndex)

/-- The precision part of a verb: what is written, the text left, whether the last item
was an index, and whether a bracket was met. -/
def verbPrec (cs : List Char) (afterIndex : Bool) : List Char × List Char × Bool × Bool :=
  match cs with
  | '.' :: rest =>
    match (argNumber rest).1 with
    | '*' :: rest2 => ("%!(BADPREC)".data, rest2, false, (argNumber rest).2.2)
    | rest2 => ([], (parsenum 0 false rest2).2.2, (argNumber rest).2.1, (argNumber rest).2.2)
  | _ => ([], cs, afterIndex, false)

/-- The verb itself: what is written for it and the text left. -/
def verbChar (cs : List Char) (bad : Bool) : List Char × List Char :=
  match cs with
  | [] => ("%!(NOVERB)".data, [])
  | verb :: rest =>
    if verb = '%' then (['%'], rest)
    else if bad then ("%!".data ++ verb :: "(BADINDEX)".data, rest)
    else ("%!".data ++ verb :: "(MISSING)".data, rest)

/-- One pass of the loop of `doPrintf` after a `%`, for a call without operands: what is
written and the text left. -/
def formatVerb (cs : List Char) : List Char × List Char :=
  let a1 := argNumber (skipFlags cs)
  let w := verbWidth a1.1 a1.2.1
  let pr := verbPrec w.2.1 w.2.2
  let a3 := if pr.2.2.1 then (pr.2.1, true, false) else argNumber pr.2.1
  let v := verbChar a3.1 (a1.2.2 || pr.2.2.2 || a3.2.2)
  (w.1 ++ pr.1 ++ v.1, v.2)

/-- The method `doPrintf` of package `fmt` for a call without operands, on at most `fuel`
stretches of the format. -/
def doPrintf : Nat → List Char → List Char
  | 0, _ => []
  | _, [] => []
  | fuel + 1, c :: cs =>
    if c = '%' then (formatVerb cs).1 ++ doPrintf fuel (formatVerb cs).2
    else c :: doPrintf fuel cs

/-- The call `fmt.Sprintf(format)` without operands. -/
def Sprintf (format : String) : String := ⟨doPrintf format.length format.data⟩

/-- The text of an error, Go's `err.Error()`. A call of `fmt.Errorf` without operands
is rendered by `Sprintf`. A call with an operand is not rendered: how `%+v` prints an
`XmlMap` depends on the methods of that type, which `payment.go` does not declare. -/
def Error.text : Error → Option String
  | .errorf format [] => some (Sprintf format)
  | .errorf _ (_ :: _) => none
  | .external msg => some msg

/-! ## Status constants, upper-casing, nonce and signature -/

/-- Modelled from the spec: the package constant `Success` is not in `payment.go`; the
spec's scenarios write the successful status as `"SUCCESS"`. -/
def Success : String := "SUCCESS"

/-- Modelled from the spec: the package constant `Fail` is not in `payment.go`; the
spec's scenarios write the failed status as `"FAIL"`. -/
def Fail : String := "FAIL"

/-- Upper-casing of one character, on the ASCII letters. -/
def upperChar (c : Char) : Char :=
  if 97 ≤ c.toNat ∧ c.toNat ≤ 122 then Char.ofNat (c.toNat - 32) else c

/-- The call `strings.ToUpper(s)`. The letters `a` to `z` are mapped, which covers a hex
digest; Go maps the other Unicode letters as well, and they are left as they are here. -/
def ToUpper (s : String) : String := ⟨s.data.map upperChar⟩

/-- Modelled from the spec: `paysdk.RandomString(n)` is not in `payment.go`; the spec
describes the nonce as a random string of fixed length, here the first `n` characters
drawn from the random source. -/
def RandomString (x : Ext) (n : Nat) : String := ⟨(List.range n).map x.entropy⟩

/-- The order `sort.Strings` uses: lexicographic on the characters. -/
def keyLE (a b : String) : Prop := a.toList ≤ b.toList

instance keyLE.decidable : DecidableRel keyLE :=
  fun a b => inferInstanceAs (Decidable (a.toList ≤ b.toList))

/-- The keys of a map, each once, in ascending order. -/
def sortedKeys (m : XmlMap) : List String :=
  List.insertionSort keyLE (List.dedup (m.map Prod.fst))

/-- Modelled from the spec: the keys that enter the canonical form, in ascending order:
every key but `sign` whose value is not empty. -/
def signedKeys (m : XmlMap) : List String :=
  (sortedKeys m).filter (fun k => k != "sign" && m.get k != "")

/-- Modelled from the spec: the canonical form of a map, its entries in ascending key
order without the `sign` entry and without the entries whose value is empty. -/
def canonical (m : XmlMap) : List (String × String) :=
  (signedKeys m).map (fun k => (k, m.get k))

/-- Modelled from the spec: the text that is hashed, the canonical entries as
`key=value&` pairs followed by `&key=<shared secret>`, both taken as the spec words
them. -/
def signPayload (m : XmlMap) (key : String) : String :=
  String.join ((canonical m).map (fun e => e.1 ++ "=" ++ e.2 ++ "&")) ++ "&key=" ++ key

/-- The canonical entries as the characters of their `key=value&` pairs. -/
def encodePairs (l : List (String × String)) : List Char :=
  (l.map (fun e => (e.1 ++ "=" ++ e.2 ++ "&").data)).flatten

/-- Modelled from the spec: `paysdk.GenerateMapSign(m, signType, key)` is not in
`payment.go`. The spec: canonicalize the map (exclude any existing `sign` field and any
field whose value is empty) by sorting keys ascending; concatenate as `key=value&` pairs
in that order; append `&key=<shared secret>`; apply the selected hash algorithm; render
as uppercase hex. The result is Go's `(string, error)`. -/
def GenerateMapSign (x : Ext) (m : XmlMap) (signType key : String) : String × Option Error :=
  let r := x.digest signType key (signPayload m key)
  (ToUpper r.1, r.2)

/-- The method `SignVerify`: the map after the call, then Go's `(bool, error)`. -/
def SignVerify (x : Ext) (p : Pay) (m : XmlMap) : XmlMap × Bool × Option Error :=
  let sign := m.get "sign"
  let m := m.delete "sign"
  let r := GenerateMapSign x m p.SignType p.Key
  (m, ToUpper r.1 == ToUpper sign, r.2)

/-- The method `VerifyResponse`: the map after the call, then Go's `error`. -/
def VerifyResponse (x : Ext) (p : Pay) (res : XmlMap) (verifySign : Bool) :
    XmlMap × Option Error :=
  if res.get "return_code" ≠ Success then
    (res, some (.errorf (res.get "return_code" ++ "_" ++ res.get "return_msg") []))
  else if res.get "result_code" = Fail then
    (res, none)
  else if res.get "result_code" = Success then
    if verifySign then
      match SignVerify x p res with
      | (res, _, some err) => (res, some err)
      | (res, isMatch, none) =>
        if !isMatch then (res, some (.errorf "sign not match[#%+v#]" [res]))
        else (res, none)
    else (res, none)
  else
    (res, some (.errorf (res.get "result_code" ++ "_" ++ res.get "err_code_des") []))

/-- The method `fillRequestData`: the map after the call, then Go's `(XmlMap, error)`
(on success the returned map is the mutated argument itself). -/
def fillRequestData (x : Ext) (p : Pay) (m : XmlMap) : XmlMap × Except Error XmlMap :=
  let m := m.set "appid" p.AppId
  let m := m.set "mch_id" p.MchId
  let m := m.set "sign_type" p.SignType
  let m := m.set "nonce_str" (RandomString x 24)
  match GenerateMapSign x m p.SignType p.Key with
  | (_, some err) => (m, .error err)
  | (sign, none) =>
    let m := m.set "sign" (ToUpper sign)
    (m, .ok m)

/-- The method `UnifiedOrder`: the request map after the call, then Go's result. -/
def UnifiedOrder (x : Ext) (p : Pay) (req : XmlMap) : XmlMap × Except Error XmlMap :=
  if req.get "body" = "" ∨ req.get "out_trade_no" = "" ∨ req.get "total_fee" = "" ∨
      req.get "spbill_create_ip" = "" ∨ req.get "notify_url" = "" ∨
      req.get "trade_type" = "" then
    (req, .error (.errorf "缺少必传参数" []))
  else
    let uri := if p.isSandBox then x.SandboxUnifiedorderUrlSuffix else x.UnifiedorderUrlSuffix
    match fillRequestData x p req with
    | (req, .error err) => (req, .error err)
    | (req, .ok filled) =>
      match x.PostXML (x.DomainApi ++ uri) filled with
      | .error err => (req, .error err)
      | .ok resp =>
        match x.Unmarshal resp with
        | .error err => (req, .error err)
        | .ok result =>
          match VerifyResponse x p result true with
          | (_, some err) => (req, .error err)
          | (result, none) => (req, .ok result)

/-- The method `Refund`: the request map after the call, then Go's result. -/
def Refund (x : Ext) (p : Pay) (req : XmlMap) : XmlMap × Except Error XmlMap :=
  if p.tlsConfig.isNone then
    (req, .error (.errorf "before using refund must SetTLS" []))
  else if (req.get "transaction_id" = "" ∧ req.get "out_trade_no" = "") ∨
      req.get "total_fee" = "" ∨ req.get "refund_fee\t" = "" then
    (req, .error (.errorf "缺少必传参数" []))
  else
    let uri := if p.isSandBox then x.SandboxRefundUrlSuffix else x.RefundUrlSuffix
    match fillRequestData x p req with
    | (req, .error err) => (req, .error err)
    | (req, .ok filled) =>
      match x.PostXMLOverTLS (x.DomainApi ++ uri) p.tlsConfig filled with
      | .error err => (req, .error err)
      | .ok resp =>
        match x.Unmarshal resp with
        | .error err => (req, .error err)
        | .ok result =>
          match VerifyResponse x p result true with
          | (_, some err) => (req, .error err)
          | (result, none) => (req, .ok result)

/-- The method `PromotionTransfers`: the request map after the call, then Go's result. -/
def PromotionTransfers (x : Ext) (p : Pay) (req : XmlMap) : XmlMap × Except Error XmlMap :=
  if p.tlsConfig.isNone then
    (req, .error (.errorf "before using refund must SetTLS" []))
  else if req.get "partner_trade_no" = "" ∨ req.get "openid" = "" ∨
      req.get "check_name" = "" ∨
      (req.get "check_name" = "FORCE_CHECK" ∧ req.get "re_user_name" = "") ∨
      req.get "amount" = "" ∨ req.get "amount" = "0" ∨ req.get "desc" = "" ∨
      req.get "spbill_create_ip" = "" then
    (req, .error (.errorf "缺少必传参数" []))
  else
    let uri := if p.isSandBox then x.SandboxTransfersUrlSuffix else x.TransfersUrlSuffix
    let req := req.set "mch_appid" p.AppId
    let req := req.set "mchid" p.MchId
    let req := req.set "nonce_str" (RandomString x 24)
    match GenerateMapSign x req x.SignTypeMD5 p.Key with
    | (_, some err) => (req, .error err)
    | (sign, none) =>
      let req := req.set "sign" (ToUpper sign)
      match x.PostXMLOverTLS (x.DomainApi ++ uri) p.tlsConfig req with
      | .error err => (req, .error err)
      | .ok resp =>
        match x.Unmarshal resp with
        | .error err => (req, .error err)
        | .ok result =>
          match VerifyResponse x p result false with
          | (_, some err) => (req, .error err)
          | (result, none) => (req, .ok result)

/-- The method `Gettransferinfo`: the request map it builds as it stands at the end of
the call, then Go's result. -/
def Gettransferinfo (x : Ext) (p : Pay) (partnerTradeNo : String) :
    XmlMap × Except Error XmlMap :=
  let req : XmlMap := [("partner_trade_no", partnerTradeNo)]
  if req.get "partner_trade_no" = "" then
    (req, .error (.errorf "缺少必传参数" []))
  else
    let uri :=
      if p.isSandBox then x.SandboxGettransferinfoUrlSuffix else x.GettransferinfoUrlSuffix
    let req := req.set "appid" p.AppId
    let req := req.set "mch_id" p.MchId
    let req := req.set "nonce_str" (RandomString x 24)
    match GenerateMapSign x req p.SignType p.Key with
    | (_, some err) => (req, .error err)
    | (sign, none) =>
      let req := req.set "sign" (ToUpper sign)
      match x.PostXMLOverTLS (x.DomainApi ++ uri) p.tlsConfig req with
      | .error err => (req, .error err)
      | .ok resp =>
        match x.Unmarshal resp with
        | .error err => (req, .error err)
        | .ok result =>
          match VerifyResponse x p result false with
          | (_, some err) => (req, .error err)
          | (result, none) => (req, .ok result)

/-! ## Concrete collaborators, for evaluating the model on concrete inputs -/

/-- A gateway reply: transport success, business failure, no signature. -/
def sampleReply : XmlMap := [("return_code", "SUCCESS"), ("result_code", "FAIL")]

/-- Collaborators for concrete runs: the hash accepts the selector `"MD5"` only and
answers with the hashed text itself, the nonce is `x` repeated, and both transports
answer `sampleReply`. -/
def sampleExt : Ext where
  SignTypeMD5 := "MD5"
  digest := fun signType _ text =>
    if signType = "MD5" then (text, none) else ("", some (.external "unsupported sign type"))
  entropy := fun _ => 'x'
  PostXML := fun _ _ => .ok []
  PostXMLOverTLS := fun _ _ _ => .ok []
  Unmarshal := fun _ => .ok sampleReply
  DomainApi := "https://api.mch.weixin.qq.com"
  UnifiedorderUrlSuffix := "/pay/unifiedorder"
  SandboxUnifiedorderUrlSuffix := "/sandboxnew/pay/unifiedorder"
  RefundUrlSuffix := "/secapi/pay/refund"
  SandboxRefundUrlSuffix := "/sandboxnew/secapi/pay/refund"
  TransfersUrlSuffix := "/mmpaymkttransfers/promotion/transfers"
  SandboxTransfersUrlSuffix := "/sandboxnew/mmpaymkttransfers/promotion/transfers"
  GettransferinfoUrlSuffix := "/mmpaymkttransfers/gettransferinfo"
  SandboxGettransferinfoUrlSuffix := "/sandboxnew/mmpaymkttransfers/gettransferinfo"

/-- Credentials without TLS material. -/
def samplePay : Pay :=
  { AppId := "A1", MchId := "M1", Key := "K1", SignType := "MD5", tlsConfig := none,
    isSandBox := false }

/-- The same credentials with a client certificate configured. -/
def samplePayTLS : Pay :=
  { samplePay with tlsConfig := some { Certificates := [("cert.pem", "key.pem")] } }

/-- A response carrying the signature `sampleExt` computes for it under `samplePay`. -/
def signedReply : XmlMap :=
  [("return_code", "SUCCESS"), ("result_code", "SUCCESS"),
    ("sign", "RESULT_CODE=SUCCESS&RETURN_CODE=SUCCESS&&KEY=K1")]

/-! ## The key order is a total order -/

instance keyLE.isTotal : IsTotal String keyLE := ⟨fun a b => le_total a.toList b.toList⟩

instance keyLE.isTrans : IsTrans String keyLE :=
  ⟨fun _ _ _ hab hbc => le_trans (α := List Char) hab hbc⟩

instance keyLE.isAntisymm : IsAntisymm String keyLE :=
  ⟨fun _ _ hab hba => String.ext (le_antisymm (α := List Char) hab hba)⟩

/-! ## Map reads after a write or a delete -/

theorem XmlMap.find?_delete (m : XmlMap) (k k' : String) :
    (m.delete k).find? k' = if k' = k then none else m.find? k' := by
  induction m with
  | nil => simp [XmlMap.delete, XmlMap.find?]
  | cons e m ih =>
    obtain ⟨a, b⟩ := e
    simp only [XmlMap.delete, XmlMap.find?] at ih ⊢
    by_cases hak : a = k
    · subst hak
      by_cases hk : k' = a
      · subst hk; simpa using ih
      · have hne : (k' == a) = false := by simpa using hk
        simpa [List.filter_cons, List.lookup_cons, hne, hk] using ih
    · have h1 : (a != k) = true := by simpa using hak
      by_cases hk : k' = a
      · subst hk
        simp [List.filter_cons, List.lookup_cons, h1, hak]
      · have hne : (k' == a) = false := by simpa using hk
        simpa [List.filter_cons, List.lookup_cons, h1, hne] using ih

theorem XmlMap.get_delete (m : XmlMap) (k k' : String) :
    (m.delete k).get k' = if k' = k then "" else m.get k' := by
  have h := XmlMap.find?_delete m k k'
  unfold XmlMap.find? at h
  unfold XmlMap.get
  rw [h]
  split <;> rfl

theorem XmlMap.find?_set (m : XmlMap) (k v k' : String) :
    (m.set k v).find? k' = if k' = k then some v else m.find? k' := by
  have h := XmlMap.find?_delete m k k'
  unfold XmlMap.find? at h ⊢
  unfold XmlMap.set
  by_cases hk : k' = k
  · subst hk; simp [List.lookup_cons]
  · have hne : (k' == k) = false := by simpa using hk
    simp [List.lookup_cons, hne, h, hk]

theorem XmlMap.get_set (m : XmlMap) (k v k' : String) :
    (m.set k v).get k' = if k' = k then v else m.get k' := by
  have h := XmlMap.find?_set m k v k'
  unfold XmlMap.find? at h
  unfold XmlMap.get
  rw [h]
  split <;> rfl

theorem XmlMap.get_of_find? {m m' : XmlMap} {k : String} (h : m.find? k = m'.find? k) :
    m.get k = m'.get k := by
  unfold XmlMap.find? at h
  unfold XmlMap.get
  rw [h]

theorem XmlMap.get_eq_empty_of_not_mem (m : XmlMap) (k : String)
    (h : k ∉ m.map Prod.fst) : m.get k = "" := by
  induction m with
  | nil => rfl
  | cons e m ih =>
    obtain ⟨a, b⟩ := e
    simp only [List.map_cons, List.mem_cons, not_or] at h
    have hne : (k == a) = false := by simpa using h.1
    have := ih h.2
    unfold XmlMap.get at this ⊢
    simpa [List.lookup_cons, hne] using this

/-! ## Upper-casing -/

theorem upperChar_upperChar (c : Char) : upperChar (upperChar c) = upperChar c := by
  unfold upperChar
  by_cases h : 97 ≤ c.toNat ∧ c.toNat ≤ 122
  · have key : ∀ n : Nat, 97 ≤ n → n ≤ 122 →
        ¬ (97 ≤ (Char.ofNat (n - 32)).toNat ∧ (Char.ofNat (n - 32)).toNat ≤ 122) := by
      intro n h1 h2
      interval_cases n <;> decide
    rw [if_pos h, if_neg (key _ h.1 h.2)]
  · rw [if_neg h, if_neg h]

theorem ToUpper_ToUpper (s : String) : ToUpper (ToUpper s) = ToUpper s := by
  unfold ToUpper
  simp [List.map_map, Function.comp_def, upperChar_upperChar]

/-! ## The canonical form depends on the non-empty values outside `sign` only -/

theorem mem_signedKeys (m : XmlMap) (k : String) :
    k ∈ signedKeys m ↔ k ≠ "sign" ∧ m.get k ≠ "" := by
  unfold signedKeys sortedKeys
  rw [List.mem_filter, (List.perm_insertionSort keyLE _).mem_iff, List.mem_dedup]
  constructor
  · intro h
    simpa using h.2
  · intro h
    refine ⟨?_, by simpa using h⟩
    by_contra hk
    exact h.2 (XmlMap.get_eq_empty_of_not_mem m k hk)

theorem signedKeys_sorted (m : XmlMap) : List.Sorted keyLE (signedKeys m) :=
  List.Sorted.filter _ (List.sorted_insertionSort keyLE _)

theorem signedKeys_nodup (m : XmlMap) : (signedKeys m).Nodup := by
  unfold signedKeys sortedKeys
  exact List.Nodup.filter _
    ((List.perm_insertionSort keyLE _).nodup_iff.mpr (List.nodup_dedup _))

theorem signedKeys_congr (m m' : XmlMap) (h : ∀ k, k ≠ "sign" → m.get k = m'.get k) :
    signedKeys m = signedKeys m' := by
  apply List.eq_of_perm_of_sorted (r := keyLE) _ (signedKeys_sorted m) (signedKeys_sorted m')
  rw [List.perm_ext_iff_of_nodup (signedKeys_nodup m) (signedKeys_nodup m')]
  intro k
  rw [mem_signedKeys, mem_signedKeys]
  constructor
  · rintro ⟨h1, h2⟩; exact ⟨h1, by rwa [← h k h1]⟩
  · rintro ⟨h1, h2⟩; exact ⟨h1, by rwa [h k h1]⟩

theorem canonical_congr (m m' : XmlMap) (h : ∀ k, k ≠ "sign" → m.get k = m'.get k) :
    canonical m = canonical m' := by
  unfold canonical
  rw [signedKeys_congr m m' h]
  apply List.map_congr_left
  intro k hk
  rw [h k ((mem_signedKeys m' k).mp hk).1]

theorem GenerateMapSign_congr (x : Ext) (m m' : XmlMap) (signType key : String)
    (h : ∀ k, k ≠ "sign" → m.get k = m'.get k) :
    GenerateMapSign x m signType key = GenerateMapSign x m' signType key := by
  unfold GenerateMapSign signPayload
  rw [canonical_congr m m' h]

theorem GenerateMapSign_delete_sign (x : Ext) (m : XmlMap) (signType key : String) :
    GenerateMapSign x (m.delete "sign") signType key = GenerateMapSign x m signType key := by
  apply GenerateMapSign_congr
  intro k hk
  rw [XmlMap.get_delete, if_neg hk]

theorem SignVerify_eq (x : Ext) (p : Pay) (m : XmlMap) :
    SignVerify x p m =
      (m.delete "sign",
        ToUpper (GenerateMapSign x (m.delete "sign") p.SignType p.Key).1 == ToUpper (m.get "sign"),
        (GenerateMapSign x (m.delete "sign") p.SignType p.Key).2) := rfl

/-! ## The formatter always ends: each verb leaves no more text than it was given -/

theorem parsenum_length (num : Nat) (isnum : Bool) (cs : List Char) :
    (parsenum num isnum cs).2.2.length ≤ cs.length := by
  induction cs generalizing num isnum with
  | nil => simp [parsenum]
  | cons c cs ih =>
    unfold parsenum
    split
    · split
      · simp
      · exact Nat.le_succ_of_le (ih _ _)
    · exact Nat.le_refl _

theorem skipFlags_length (cs : List Char) : (skipFlags cs).length ≤ cs.length := by
  induction cs with
  | nil => simp [skipFlags]
  | cons c cs ih =>
    unfold skipFlags
    split
    · exact Nat.le_succ_of_le ih
    · exact Nat.le_refl _

theorem argNumber_length (cs : List Char) : (argNumber cs).1.length ≤ cs.length := by
  unfold argNumber
  split
  · simp
  · exact Nat.le_refl _

theorem verbWidth_length (cs : List Char) (afterIndex : Bool) :
    (verbWidth cs afterIndex).2.1.length ≤ cs.length := by
  unfold verbWidth
  split
  · simp
  · exact parsenum_length _ _ _

theorem verbPrec_length (cs : List Char) (afterIndex : Bool) :
    (verbPrec cs afterIndex).2.1.length ≤ cs.length := by
  unfold verbPrec
  split
  · rename_i rest
    have h1 := argNumber_length rest
    split
    · rename_i rest2 heq
      rw [heq] at h1
      simp only [List.length_cons] at h1 ⊢
      omega
    · have h2 := parsenum_length 0 false (argNumber rest).1
      simp only [List.length_cons]
      omega
  · exact Nat.le_refl _

theorem verbChar_length (cs : List Char) (bad : Bool) :
    (verbChar cs bad).2.length ≤ cs.length := by
  unfold verbChar
  split
  · simp
  · split
    · simp
    · split <;> simp

theorem formatVerb_length (cs : List Char) : (formatVerb cs).2.length ≤ cs.length := by
  unfold formatVerb
  have h0 := skipFlags_length cs
  have h1 := argNumber_length (skipFlags cs)
  have h2 := verbWidth_length (argNumber (skipFlags cs)).1 (argNumber (skipFlags cs)).2.1
  have h3 := verbPrec_length
    (verbWidth (argNumber (skipFlags cs)).1 (argNumber (skipFlags cs)).2.1).2.1
    (verbWidth (argNumber (skipFlags cs)).1 (argNumber (skipFlags cs)).2.1).2.2
  simp only
  split
  · refine le_trans (verbChar_length _ _) ?_
    show (verbPrec _ _).2.1.length ≤ cs.length
    omega
  · exact le_trans (verbChar_length _ _) (le_trans (argNumber_length _) (by omega))

/-- More fuel than the format is long changes nothing: `Sprintf` formats the whole
text. -/
theorem doPrintf_fuel (n : Nat) (cs : List Char) (h : cs.length ≤ n) :
    doPrintf (n + 1) cs = doPrintf n cs := by
  induction n generalizing cs with
  | zero =>
    have : cs = [] := List.length_eq_zero.mp (Nat.le_zero.mp h)
    subst this
    rfl
  | succ n ih =>
    cases cs with
    | nil => rfl
    | cons c cs =>
      have hcs : cs.length ≤ n := by simpa using h
      show (if c = '%' then _ else _) = (if c = '%' then _ else _)
      rw [ih cs hcs, ih _ (le_trans (formatVerb_length cs) hcs)]

/-- A format without `%` is rendered as it stands. -/
theorem doPrintf_plain (n : Nat) (cs : List Char) (h : cs.length ≤ n)
    (hp : '%' ∉ cs) : doPrintf n cs = cs := by
  induction cs generalizing n with
  | nil => cases n <;> rfl
  | cons c cs ih =>
    cases n with
    | zero => simp at h
    | succ n =>
      have hc : c ≠ '%' := fun hc => hp (by simp [hc])
      have hcs : '%' ∉ cs := fun hm => hp (List.mem_cons_of_mem _ hm)
      show (if c = '%' then _ else _) = _
      rw [if_neg hc, ih n (by simpa using h) hcs]

theorem Sprintf_plain (format : String) (hp : '%' ∉ format.data) :
    Sprintf format = format := by
  unfold Sprintf
  rw [doPrintf_plain format.length format.data (Nat.le_refl _) hp]

/-! ## The hashed text determines the canonical form when no key holds `=` and no value `&` -/

theorem signPayload_data (m : XmlMap) (key : String) :
    (signPayload m key).data = encodePairs (canonical m) ++ ("&key=".data ++ key.data) := by
  unfold signPayload encodePairs
  rw [String.data_append, String.data_append, String.join_eq, List.map_map,
    List.append_assoc]
  rfl

theorem split_at_first {c : Char} {a a' r r' : List Char} (ha : c ∉ a) (ha' : c ∉ a')
    (h : a ++ c :: r = a' ++ c :: r') : a = a' ∧ r = r' := by
  induction a generalizing a' with
  | nil =>
    cases a' with
    | nil => exact ⟨rfl, by simpa using h⟩
    | cons d a' =>
      exfalso
      simp only [List.nil_append, List.cons_append, List.cons.injEq] at h
      exact ha' (by simp [h.1])
  | cons b a ih =>
    cases a' with
    | nil =>
      exfalso
      simp only [List.nil_append, List.cons_append, List.cons.injEq] at h
      exact ha (by simp [h.1])
    | cons d a' =>
      simp only [List.cons_append, List.cons.injEq] at h
      have hr := ih (fun hm => ha (List.mem_cons_of_mem _ hm))
        (fun hm => ha' (List.mem_cons_of_mem _ hm)) h.2
      exact ⟨by rw [h.1, hr.1], hr.2⟩

theorem encodePairs_cons (e : String × String) (l : List (String × String)) :
    encodePairs (e :: l) = e.1.data ++ '=' :: (e.2.data ++ '&' :: encodePairs l) := by
  simp [encodePairs, String.data_append]

theorem encodePairs_injective (l l' : List (String × String))
    (hl : ∀ e ∈ l, '=' ∉ e.1.data ∧ '&' ∉ e.2.data)
    (hl' : ∀ e ∈ l', '=' ∉ e.1.data ∧ '&' ∉ e.2.data)
    (h : encodePairs l = encodePairs l') : l = l' := by
  induction l generalizing l' with
  | nil =>
    cases l' with
    | nil => rfl
    | cons e' l' =>
      rw [encodePairs_cons] at h
      have : ('=' : Char) ∈ encodePairs [] := by rw [h]; simp
      simp [encodePairs] at this
  | cons e l ih =>
    cases l' with
    | nil =>
      rw [encodePairs_cons] at h
      have : ('=' : Char) ∈ encodePairs [] := by rw [← h]; simp
      simp [encodePairs] at this
    | cons e' l' =>
      rw [encodePairs_cons, encodePairs_cons] at h
      have he := hl e (List.mem_cons_self _ _)
      have he' := hl' e' (List.mem_cons_self _ _)
      obtain ⟨h1, h2⟩ := split_at_first he.1 he'.1 h
      obtain ⟨h3, h4⟩ := split_at_first he.2 he'.2 h2
      have hrest := ih l' (fun x hx => hl x (List.mem_cons_of_mem _ hx))
        (fun x hx => hl' x (List.mem_cons_of_mem _ hx)) h4
      rw [hrest, Prod.ext (String.ext h1) (String.ext h3)]

theorem XmlMap.mem_of_get_ne_empty (m : XmlMap) (k : String) (h : m.get k ≠ "") :
    (k, m.get k) ∈ m := by
  induction m with
  | nil => exact absurd rfl h
  | cons e m ih =>
    obtain ⟨a, b⟩ := e
    by_cases hk : k = a
    · subst hk
      have : XmlMap.get ((k, b) :: m) k = b := by simp [XmlMap.get, List.lookup_cons]
      rw [this]
      exact List.mem_cons_self _ _
    · have hne : (k == a) = false := by simpa using hk
      have : XmlMap.get ((a, b) :: m) k = XmlMap.get m k := by
        simp [XmlMap.get, List.lookup_cons, hne]
      rw [this] at h ⊢
      exact List.mem_cons_of_mem _ (ih h)

theorem canonical_subset (m : XmlMap) : ∀ e ∈ canonical m, e ∈ m ∧ e.1 ≠ "sign" := by
  intro e he
  unfold canonical at he
  obtain ⟨k, hk, rfl⟩ := List.mem_map.mp he
  exact ⟨XmlMap.mem_of_get_ne_empty m k ((mem_signedKeys m k).mp hk).2,
    ((mem_signedKeys m k).mp hk).1⟩

theorem get_of_canonical_eq (m m' : XmlMap) (h : canonical m = canonical m')
    (k : String) (hk : k ≠ "sign") : m.get k = m'.get k := by
  have key : ∀ n n' : XmlMap, canonical n = canonical n' → n.get k ≠ "" →
      n'.get k = n.get k := by
    intro n n' hc hn
    have hmem : (k, n.get k) ∈ canonical n' := by
      rw [← hc]
      exact List.mem_map.mpr ⟨k, (mem_signedKeys n k).mpr ⟨hk, hn⟩, rfl⟩
    obtain ⟨k2, _, heq⟩ := List.mem_map.mp hmem
    have h1 : k2 = k := congrArg Prod.fst heq
    have h2 : n'.get k2 = n.get k := congrArg Prod.snd heq
    subst h1
    exact h2
  by_cases hm : m.get k = ""
  · by_cases hm' : m'.get k = ""
    · rw [hm, hm']
    · exact key m' m h.symm hm'
  · exact (key m m' h hm).symm

theorem signPayload_injective (m m' : XmlMap) (key : String)
    (hd : ∀ e ∈ m, e.1 ≠ "sign" → '=' ∉ e.1.data ∧ '&' ∉ e.2.data)
    (hd' : ∀ e ∈ m', e.1 ≠ "sign" → '=' ∉ e.1.data ∧ '&' ∉ e.2.data)
    (h : signPayload m key = signPayload m' key) :
    ∀ k, k ≠ "sign" → m.get k = m'.get k := by
  have hdata := congrArg String.data h
  rw [signPayload_data, signPayload_data] at hdata
  have henc := List.append_cancel_right hdata
  exact get_of_canonical_eq m m' (encodePairs_injective _ _
    (fun e he => hd e (canonical_subset m e he).1 (canonical_subset m e he).2)
    (fun e he => hd' e (canonical_subset m' e he).1 (canonical_subset m' e he).2) henc)

/-! ## Response verification (`VerifyResponse`) -/

/-- C1: on a response with `return_code = "SUCCESS"` and `result_code = "SUCCESS"`,
`VerifyResponse` returns no error exactly when `verifySign` is false, or the signature
computed over the map without its `sign` entry succeeds and equals the original `sign`
value once both are upper-cased. With `verifySign` true, a successful computation whose
result differs gives the sign-mismatch error (built over the map without `sign`), and a
failed computation gives that computation's error. -/
theorem VerifyResponse_business_success (x : Ext) (p : Pay) (res : XmlMap)
    (verifySign : Bool) (hrc : res.get "return_code" = "SUCCESS")
    (hres : res.get "result_code" = "SUCCESS") :
    ((VerifyResponse x p res verifySign).2 = none ↔
      (verifySign = false ∨
        ((GenerateMapSign x (res.delete "sign") p.SignType p.Key).2 = none ∧
          ToUpper (GenerateMapSign x (res.delete "sign") p.SignType p.Key).1 =
            ToUpper (res.get "sign")))) ∧
    (verifySign = true →
      (GenerateMapSign x (res.delete "sign") p.SignType p.Key).2 = none →
      ToUpper (GenerateMapSign x (res.delete "sign") p.SignType p.Key).1 ≠
        ToUpper (res.get "sign") →
      (VerifyResponse x p res verifySign).2 =
        some (.errorf "sign not match[#%+v#]" [res.delete "sign"])) ∧
    (verifySign = true → ∀ err,
      (GenerateMapSign x (res.delete "sign") p.SignType p.Key).2 = some err →
      (VerifyResponse x p res verifySign).2 = some err) := by
  have hne : ¬ ("SUCCESS" : String) = "FAIL" := by decide
  cases verifySign with
  | false => simp [VerifyResponse, hrc, hres, Success, Fail, hne]
  | true =>
    rcases hg : (GenerateMapSign x (res.delete "sign") p.SignType p.Key).2 with _ | e
    · by_cases hm : ToUpper (GenerateMapSign x (res.delete "sign") p.SignType p.Key).1 =
          ToUpper (res.get "sign")
      · simp [VerifyResponse, SignVerify_eq, hrc, hres, Success, Fail, hne, hg, hm]
      · simp [VerifyResponse, SignVerify_eq, hrc, hres, Success, Fail, hne, hg, hm]
    · simp [VerifyResponse, SignVerify_eq, hrc, hres, Success, Fail, hne, hg]

/-- C1 at a concrete input: a correctly signed successful response passes with the
signature check on. -/
theorem VerifyResponse_business_success_witness :
    signedReply.get "return_code" = "SUCCESS" ∧ signedReply.get "result_code" = "SUCCESS" ∧
      (VerifyResponse sampleExt samplePay signedReply true).2 = none :=
  ⟨by decide, by decide,
    (VerifyResponse_business_success sampleExt samplePay signedReply true
      (by decide) (by decide)).1.mpr (Or.inr ⟨by decide, by decide⟩)⟩

/-- The transport tier: on a response whose `return_code` is not `"SUCCESS"` (a missing
one reads as the empty string), `VerifyResponse` returns the error of the call
`fmt.Errorf(return_code + "_" + return_msg)` and leaves the map as it was. The outcome
is the same for every `verifySign`, `result_code`, `sign` and collaborator: neither the
business tier nor the signature tier is evaluated. -/
theorem VerifyResponse_transport_failure (x : Ext) (p : Pay) (res : XmlMap)
    (verifySign : Bool) (hrc : res.get "return_code" ≠ "SUCCESS") :
    VerifyResponse x p res verifySign =
      (res, some (.errorf (res.get "return_code" ++ "_" ++ res.get "return_msg") [])) := by
  simp [VerifyResponse, Success, hrc]

/-- The transport tier at the spec's scenario: `return_code = "FAIL"`, `return_msg = "SIGNERROR"`, with
an inconsistent `result_code` and a wrong `sign` left in place. -/
theorem VerifyResponse_transport_failure_witness :
    XmlMap.get [("return_code", "FAIL"), ("return_msg", "SIGNERROR"),
        ("result_code", "SUCCESS"), ("sign", "bad")] "return_code" ≠ "SUCCESS" ∧
      VerifyResponse sampleExt samplePay [("return_code", "FAIL"), ("return_msg", "SIGNERROR"),
        ("result_code", "SUCCESS"), ("sign", "bad")] true =
      ([("return_code", "FAIL"), ("return_msg", "SIGNERROR"),
        ("result_code", "SUCCESS"), ("sign", "bad")], some (.errorf "FAIL_SIGNERROR" [])) :=
  ⟨by decide,
    VerifyResponse_transport_failure sampleExt samplePay [("return_code", "FAIL"),
      ("return_msg", "SIGNERROR"), ("result_code", "SUCCESS"), ("sign", "bad")] true
      (by decide)⟩

/-- C3: on a response with `return_code = "SUCCESS"` and `result_code = "FAIL"`,
`VerifyResponse` returns no error for either `verifySign` and whatever the `sign` entry
is, and leaves the map as it was, so the caller still reads `result_code = "FAIL"`. -/
theorem VerifyResponse_business_failure (x : Ext) (p : Pay) (res : XmlMap)
    (verifySign : Bool) (hrc : res.get "return_code" = "SUCCESS")
    (hres : res.get "result_code" = "FAIL") :
    VerifyResponse x p res verifySign = (res, none) ∧
      (VerifyResponse x p res verifySign).1.get "result_code" = "FAIL" := by
  have h : VerifyResponse x p res verifySign = (res, none) := by
    simp [VerifyResponse, Success, Fail, hrc, hres]
  exact ⟨h, by rw [h]; exact hres⟩

/-- C3 at a concrete input: a business failure with a wrong signature and the signature
check on. -/
theorem VerifyResponse_business_failure_witness :
    XmlMap.get [("return_code", "SUCCESS"), ("result_code", "FAIL"), ("sign", "bad")]
        "return_code" = "SUCCESS" ∧
      XmlMap.get [("return_code", "SUCCESS"), ("result_code", "FAIL"), ("sign", "bad")]
        "result_code" = "FAIL" ∧
      VerifyResponse sampleExt samplePay
        [("return_code", "SUCCESS"), ("result_code", "FAIL"), ("sign", "bad")] true =
        ([("return_code", "SUCCESS"), ("result_code", "FAIL"), ("sign", "bad")], none) :=
  ⟨by decide, by decide,
    (VerifyResponse_business_failure sampleExt samplePay
      [("return_code", "SUCCESS"), ("result_code", "FAIL"), ("sign", "bad")] true
      (by decide) (by decide)).1⟩

/-- The business tier on an unknown result: on a response with
`return_code = "SUCCESS"` whose `result_code` is neither `"SUCCESS"` nor `"FAIL"` (a
missing one reads as the empty string), `VerifyResponse` returns the error of the call
`fmt.Errorf(result_code + "_" + err_code_des)`, for either `verifySign`, and leaves the
map as it was; the outcome does not depend on the collaborators, so no signature is
computed. -/
theorem VerifyResponse_unknown_result (x : Ext) (p : Pay) (res : XmlMap)
    (verifySign : Bool) (hrc : res.get "return_code" = "SUCCESS")
    (hs : res.get "result_code" ≠ "SUCCESS") (hf : res.get "result_code" ≠ "FAIL") :
    VerifyResponse x p res verifySign =
      (res, some (.errorf (res.get "result_code" ++ "_" ++ res.get "err_code_des") [])) := by
  simp [VerifyResponse, Success, Fail, hrc, hs, hf]

/-- The unknown-result branch at a concrete input, with a wrong signature. -/
theorem VerifyResponse_unknown_result_witness :
    XmlMap.get [("return_code", "SUCCESS"), ("result_code", "PENDING"),
        ("err_code_des", "wait"), ("sign", "bad")] "return_code" = "SUCCESS" ∧
      XmlMap.get [("return_code", "SUCCESS"), ("result_code", "PENDING"),
        ("err_code_des", "wait"), ("sign", "bad")] "result_code" ≠ "SUCCESS" ∧
      XmlMap.get [("return_code", "SUCCESS"), ("result_code", "PENDING"),
        ("err_code_des", "wait"), ("sign", "bad")] "result_code" ≠ "FAIL" ∧
      VerifyResponse sampleExt samplePay [("return_code", "SUCCESS"),
          ("result_code", "PENDING"), ("err_code_des", "wait"), ("sign", "bad")] true =
        ([("return_code", "SUCCESS"), ("result_code", "PENDING"), ("err_code_des", "wait"),
          ("sign", "bad")], some (.errorf "PENDING_wait" [])) :=
  ⟨by decide, by decide, by decide,
    VerifyResponse_unknown_result sampleExt samplePay [("return_code", "SUCCESS"),
      ("result_code", "PENDING"), ("err_code_des", "wait"), ("sign", "bad")] true
      (by decide) (by decide) (by decide)⟩

/-- C2, evaluated at the failing input: on the response `return_code = "FAIL"`,
`return_msg = "50%off"` the transport tier hands the text `FAIL_50%off` to `fmt.Errorf`
as its format, and the error returned reads `FAIL_50%!o(MISSING)ff`, not the text
`return_code`, `"_"`, `return_msg`. -/
theorem VerifyResponse_transport_failure_text :
    VerifyResponse sampleExt samplePay [("return_code", "FAIL"), ("return_msg", "50%off")]
        true =
      ([("return_code", "FAIL"), ("return_msg", "50%off")],
        some (.errorf "FAIL_50%off" [])) ∧
      Error.text (.errorf "FAIL_50%off" []) = some "FAIL_50%!o(MISSING)ff" :=
  ⟨rfl, rfl⟩

/-- C6, evaluated at the failing input: on the response `return_code = "SUCCESS"`,
`result_code = "PENDING"`, `err_code_des = "%d left"` the text `PENDING_%d left` is
handed to `fmt.Errorf` as its format, and the error returned reads
`PENDING_%!d(MISSING) left`, not the text `result_code`, `"_"`, `err_code_des`. -/
theorem VerifyResponse_unknown_result_text :
    VerifyResponse sampleExt samplePay [("return_code", "SUCCESS"),
        ("result_code", "PENDING"), ("err_code_des", "%d left")] true =
      ([("return_code", "SUCCESS"), ("result_code", "PENDING"), ("err_code_des", "%d left")],
        some (.errorf "PENDING_%d left" [])) ∧
      Error.text (.errorf "PENDING_%d left" []) = some "PENDING_%!d(MISSING) left" :=
  ⟨rfl, rfl⟩

/-- An error built by `fmt.Errorf` from a text without `%` reads as that text. -/
theorem Error.text_plain (format : String) (h : '%' ∉ format.data) :
    Error.text (.errorf format []) = some format := by
  show some (Sprintf format) = some format
  rw [Sprintf_plain format h]

/-- The plain case at the spec's scenario, `FAIL_SIGNERROR`. -/
theorem Error.text_plain_witness :
    '%' ∉ "FAIL_SIGNERROR".data ∧
      Error.text (.errorf "FAIL_SIGNERROR" []) = some "FAIL_SIGNERROR" :=
  ⟨by decide, Error.text_plain "FAIL_SIGNERROR" (by decide)⟩

/-! ## Request assembly (`fillRequestData`) and `SignVerify` -/

/-- What `fillRequestData` returns when it succeeds: the argument with the four identity
fields set and the upper-cased signature of that map under `sign`. -/
theorem fillRequestData_ok (x : Ext) (p : Pay) (m out : XmlMap)
    (h : (fillRequestData x p m).2 = .ok out) :
    (GenerateMapSign x
        ((((m.set "appid" p.AppId).set "mch_id" p.MchId).set "sign_type" p.SignType).set
          "nonce_str" (RandomString x 24)) p.SignType p.Key).2 = none ∧
      out = ((((m.set "appid" p.AppId).set "mch_id" p.MchId).set "sign_type" p.SignType).set
          "nonce_str" (RandomString x 24)).set "sign"
        (ToUpper (GenerateMapSign x
          ((((m.set "appid" p.AppId).set "mch_id" p.MchId).set "sign_type" p.SignType).set
            "nonce_str" (RandomString x 24)) p.SignType p.Key).1) := by
  unfold fillRequestData at h
  rcases hg : GenerateMapSign x
      ((((m.set "appid" p.AppId).set "mch_id" p.MchId).set "sign_type" p.SignType).set
        "nonce_str" (RandomString x 24)) p.SignType p.Key with ⟨s, _ | e⟩
  · simp only [hg] at h
    injection h with h
    exact ⟨rfl, h.symm⟩
  · simp only [hg] at h
    cases h

/-- C4: round trip. Whenever `fillRequestData` succeeds on a map (one that already holds
a `sign` entry included), `SignVerify` under the same credentials answers
`matches = true` with no error on the returned map. -/
theorem fillRequestData_SignVerify (x : Ext) (p : Pay) (m out : XmlMap)
    (h : (fillRequestData x p m).2 = .ok out) :
    (SignVerify x p out).2 = (true, none) := by
  obtain ⟨hg, hout⟩ := fillRequestData_ok x p m out h
  generalize ((((m.set "appid" p.AppId).set "mch_id" p.MchId).set "sign_type" p.SignType).set
    "nonce_str" (RandomString x 24)) = filled at hg hout
  have hsame : GenerateMapSign x (out.delete "sign") p.SignType p.Key =
      GenerateMapSign x filled p.SignType p.Key := by
    rw [GenerateMapSign_delete_sign]
    apply GenerateMapSign_congr
    intro k hk
    rw [hout, XmlMap.get_set, if_neg hk]
  have hsign : out.get "sign" = ToUpper (GenerateMapSign x filled p.SignType p.Key).1 := by
    rw [hout, XmlMap.get_set, if_pos rfl]
  rw [SignVerify_eq, hsame, hsign, ToUpper_ToUpper, hg]
  simp

/-- C4 at a concrete input: a request that already carries a stale `sign` entry. -/
theorem fillRequestData_SignVerify_witness :
    (fillRequestData sampleExt samplePay [("body", "order1"), ("sign", "stale")]).2 =
        .ok [("sign", "APPID=A1&BODY=ORDER1&MCH_ID=M1&NONCE_STR=XXXXXXXXXXXXXXXXXXXXXXXX&SIGN_TYPE=MD5&&KEY=K1"),
          ("nonce_str", "xxxxxxxxxxxxxxxxxxxxxxxx"), ("sign_type", "MD5"), ("mch_id", "M1"),
          ("appid", "A1"), ("body", "order1")] ∧
      (SignVerify sampleExt samplePay
        [("sign", "APPID=A1&BODY=ORDER1&MCH_ID=M1&NONCE_STR=XXXXXXXXXXXXXXXXXXXXXXXX&SIGN_TYPE=MD5&&KEY=K1"),
          ("nonce_str", "xxxxxxxxxxxxxxxxxxxxxxxx"), ("sign_type", "MD5"), ("mch_id", "M1"),
          ("appid", "A1"), ("body", "order1")]).2 = (true, none) :=
  ⟨rfl, fillRequestData_SignVerify sampleExt samplePay [("body", "order1"), ("sign", "stale")]
    _ rfl⟩

/-- C7: when `fillRequestData` succeeds, the returned map holds `appid = p.AppId`,
`mch_id = p.MchId`, `sign_type = p.SignType`, a `nonce_str` of exactly 24 characters and
a `sign` entry equal to its own upper-casing; every other key is present or absent, and
valued, as in the input map. -/
theorem fillRequestData_fields (x : Ext) (p : Pay) (m out : XmlMap)
    (h : (fillRequestData x p m).2 = .ok out) :
    out.find? "appid" = some p.AppId ∧ out.find? "mch_id" = some p.MchId ∧
      out.find? "sign_type" = some p.SignType ∧
      (∃ nonce, out.find? "nonce_str" = some nonce ∧ nonce.length = 24) ∧
      (∃ sign, out.find? "sign" = some sign ∧ sign = ToUpper sign) ∧
      ∀ k, k ≠ "appid" → k ≠ "mch_id" → k ≠ "sign_type" → k ≠ "nonce_str" → k ≠ "sign" →
        out.find? k = m.find? k := by
  obtain ⟨_, hout⟩ := fillRequestData_ok x p m out h
  subst hout
  refine ⟨?_, ?_, ?_, ⟨RandomString x 24, ?_, ?_⟩, ?_, ?_⟩
  · simp [XmlMap.find?_set]
  · simp [XmlMap.find?_set]
  · simp [XmlMap.find?_set]
  · simp [XmlMap.find?_set]
  · simp [RandomString, String.length]
  · refine ⟨ToUpper (GenerateMapSign x
      ((((m.set "appid" p.AppId).set "mch_id" p.MchId).set "sign_type" p.SignType).set
        "nonce_str" (RandomString x 24)) p.SignType p.Key).1, ?_, (ToUpper_ToUpper _).symm⟩
    rw [XmlMap.find?_set, if_pos rfl]
  · intro k h1 h2 h3 h4 h5
    simp [XmlMap.find?_set, h1, h2, h3, h4, h5]

/-- C7 at the spec's scenario: the unified-order request under `(A1, M1, K1)`. -/
theorem fillRequestData_fields_witness :
    ∃ out, (fillRequestData sampleExt samplePay [("body", "order1"), ("out_trade_no", "T1001"),
        ("total_fee", "100"), ("spbill_create_ip", "1.2.3.4"),
        ("notify_url", "https://x/notify"), ("trade_type", "JSAPI")]).2 = .ok out ∧
      out.find? "appid" = some "A1" ∧
      (∃ nonce, out.find? "nonce_str" = some nonce ∧ nonce.length = 24) ∧
      out.find? "body" = some "order1" :=
  ⟨_, rfl,
    (fillRequestData_fields sampleExt samplePay [("body", "order1"), ("out_trade_no", "T1001"),
        ("total_fee", "100"), ("spbill_create_ip", "1.2.3.4"),
        ("notify_url", "https://x/notify"), ("trade_type", "JSAPI")] _ rfl).1,
    (fillRequestData_fields sampleExt samplePay [("body", "order1"), ("out_trade_no", "T1001"),
        ("total_fee", "100"), ("spbill_create_ip", "1.2.3.4"),
        ("notify_url", "https://x/notify"), ("trade_type", "JSAPI")] _ rfl).2.2.2.1,
    by decide⟩

/-- C8: exclusion invariant. For two maps that agree on every key other than `sign`,
the signature `SignVerify` recomputes (over the map with `sign` deleted) is the same, so
the verdict on either map is the comparison of that one recomputed value with the map's
own `sign` entry, both upper-cased, together with the computation's error. -/
theorem SignVerify_sign_excluded (x : Ext) (p : Pay) (m m' : XmlMap)
    (h : ∀ k, k ≠ "sign" → m.find? k = m'.find? k) :
    GenerateMapSign x (m.delete "sign") p.SignType p.Key =
        GenerateMapSign x (m'.delete "sign") p.SignType p.Key ∧
      (SignVerify x p m).2 =
        (ToUpper (GenerateMapSign x (m.delete "sign") p.SignType p.Key).1 ==
          ToUpper (m.get "sign"),
          (GenerateMapSign x (m.delete "sign") p.SignType p.Key).2) ∧
      (SignVerify x p m').2 =
        (ToUpper (GenerateMapSign x (m.delete "sign") p.SignType p.Key).1 ==
          ToUpper (m'.get "sign"),
          (GenerateMapSign x (m.delete "sign") p.SignType p.Key).2) := by
  have hgen : GenerateMapSign x (m.delete "sign") p.SignType p.Key =
      GenerateMapSign x (m'.delete "sign") p.SignType p.Key := by
    apply GenerateMapSign_congr
    intro k hk
    rw [XmlMap.get_delete, XmlMap.get_delete, if_neg hk, if_neg hk]
    exact XmlMap.get_of_find? (h k hk)
  refine ⟨hgen, rfl, ?_⟩
  rw [hgen]
  rfl

/-- C8 at a concrete input: one map without `sign`, one with a wrong `sign`. -/
theorem SignVerify_sign_excluded_witness :
    (∀ k, k ≠ "sign" → XmlMap.find? [("a", "1")] k = XmlMap.find? [("a", "1"), ("sign", "S")] k) ∧
      GenerateMapSign sampleExt (XmlMap.delete [("a", "1")] "sign") "MD5" "K1" =
        GenerateMapSign sampleExt (XmlMap.delete [("a", "1"), ("sign", "S")] "sign") "MD5" "K1" :=
  ⟨by
      intro k hk
      have hne : (k == "sign") = false := by simpa using hk
      simp [XmlMap.find?, List.lookup_cons, hne],
    (SignVerify_sign_excluded sampleExt samplePay [("a", "1")] [("a", "1"), ("sign", "S")]
      (by
        intro k hk
        have hne : (k == "sign") = false := by simpa using hk
        simp [XmlMap.find?, List.lookup_cons, hne])).1⟩

/-- C5 as stated fails, whatever the collaborators are: take the map `a = "1"` with its
own signature under `sign`, and add the field `b` with an empty value. `SignVerify`
accepts the first map and still accepts the second, because an empty value does not
enter the canonical form. -/
theorem SignVerify_tamper_undetected :
    ¬ ∃ x : Ext, ∀ (p : Pay) (m m' : XmlMap),
      (SignVerify x p m).2.1 = true → m'.find? "sign" = m.find? "sign" →
      (∃ k, k ≠ "sign" ∧ m'.find? k ≠ m.find? k) →
      (SignVerify x p m').2.1 = false := by
  rintro ⟨x, h⟩
  have hgen : ∀ s : String, GenerateMapSign x (XmlMap.delete [("a", "1"), ("sign", s)] "sign")
      "MD5" "K1" = GenerateMapSign x [("a", "1")] "MD5" "K1" := fun _ => rfl
  have hfirst : (SignVerify x samplePay
      [("a", "1"), ("sign", (GenerateMapSign x [("a", "1")] "MD5" "K1").1)]).2.1 = true := by
    rw [SignVerify_eq]
    show (ToUpper (GenerateMapSign x (XmlMap.delete _ "sign") "MD5" "K1").1 ==
      ToUpper (GenerateMapSign x [("a", "1")] "MD5" "K1").1) = true
    rw [hgen]
    simp
  have hsecond := h samplePay _
    [("b", ""), ("a", "1"), ("sign", (GenerateMapSign x [("a", "1")] "MD5" "K1").1)]
    hfirst rfl ⟨"b", by decide, by simp [XmlMap.find?, List.lookup_cons]⟩
  have hagree : ∀ k, k ≠ "sign" →
      XmlMap.get [("b", ""), ("a", "1"),
        ("sign", (GenerateMapSign x [("a", "1")] "MD5" "K1").1)] k =
      XmlMap.get [("a", "1")] k := by
    intro k hk
    have hne : (k == "sign") = false := by simpa using hk
    by_cases hb : k = "b"
    · subst hb; rfl
    · have hnb : (k == "b") = false := by simpa using hb
      simp [XmlMap.get, List.lookup_cons, hne, hnb]
  rw [SignVerify_eq, GenerateMapSign_delete_sign,
    GenerateMapSign_congr x _ [("a", "1")] _ _ hagree] at hsecond
  simp at hsecond
  exact hsecond rfl

/-- C5 as amended: tamper detection. Take a map `m` that `SignVerify` accepts and a map
`m'` that keeps its `sign` value and in which some field other than `sign` reads
differently (a value changed, a field with a value added or removed; an absent field
and an empty one read alike). If, outside `sign`, no key of either map holds `=` and no
value holds `&`, and
the hash does not give the two canonical texts the same digest once upper-cased, then
`SignVerify` answers `matches = false` on `m'`. -/
theorem SignVerify_tamper_detected (x : Ext) (p : Pay) (m m' : XmlMap)
    (hm : (SignVerify x p m).2.1 = true) (hs : m'.get "sign" = m.get "sign")
    (hchange : ∃ k, k ≠ "sign" ∧ m'.get k ≠ m.get k)
    (hd : ∀ e ∈ m, e.1 ≠ "sign" → '=' ∉ e.1.data ∧ '&' ∉ e.2.data)
    (hd' : ∀ e ∈ m', e.1 ≠ "sign" → '=' ∉ e.1.data ∧ '&' ∉ e.2.data)
    (hhash : ToUpper (x.digest p.SignType p.Key (signPayload m' p.Key)).1 =
        ToUpper (x.digest p.SignType p.Key (signPayload m p.Key)).1 →
      signPayload m' p.Key = signPayload m p.Key) :
    (SignVerify x p m').2.1 = false := by
  rw [SignVerify_eq, GenerateMapSign_delete_sign] at hm
  have hm2 : ToUpper (GenerateMapSign x m p.SignType p.Key).1 = ToUpper (m.get "sign") := by
    simpa using hm
  rw [SignVerify_eq, GenerateMapSign_delete_sign, hs, ← hm2]
  obtain ⟨k, hk, hne⟩ := hchange
  have hdiff : ToUpper (GenerateMapSign x m' p.SignType p.Key).1 ≠
      ToUpper (GenerateMapSign x m p.SignType p.Key).1 := by
    intro heq
    simp only [GenerateMapSign, ToUpper_ToUpper] at heq
    exact hne (signPayload_injective m' m p.Key hd' hd (hhash heq) k hk)
  simpa using hdiff

/-- C5 as amended, at a concrete input: changing `a` from `"1"` to `"2"` under the
signature of the original map is detected. -/
theorem SignVerify_tamper_detected_witness :
    (SignVerify sampleExt samplePay [("a", "1"), ("sign", "A=1&&KEY=K1")]).2.1 = true ∧
      XmlMap.get [("a", "2"), ("sign", "A=1&&KEY=K1")] "sign" =
        XmlMap.get [("a", "1"), ("sign", "A=1&&KEY=K1")] "sign" ∧
      (∃ k, k ≠ "sign" ∧ XmlMap.get [("a", "2"), ("sign", "A=1&&KEY=K1")] k ≠
        XmlMap.get [("a", "1"), ("sign", "A=1&&KEY=K1")] k) ∧
      (∀ e ∈ ([("a", "1"), ("sign", "A=1&&KEY=K1")] : XmlMap), e.1 ≠ "sign" →
        '=' ∉ e.1.data ∧ '&' ∉ e.2.data) ∧
      (SignVerify sampleExt samplePay [("a", "2"), ("sign", "A=1&&KEY=K1")]).2.1 = false :=
  ⟨by decide, by decide, ⟨"a", by decide, by decide⟩, by decide,
    SignVerify_tamper_detected sampleExt samplePay [("a", "1"), ("sign", "A=1&&KEY=K1")]
      [("a", "2"), ("sign", "A=1&&KEY=K1")] (by decide) (by decide)
      ⟨"a", by decide, by decide⟩ (by decide) (by decide) (by decide)⟩

/-- A mutation is not seen when every field other than `sign` reads as before: if `m'`
keeps the `sign` value of a map `m` that `SignVerify` accepts and every other key reads
the same in both (an absent field and an empty one read alike), `SignVerify` accepts
`m'` as well. -/
theorem SignVerify_accepts_same_reads (x : Ext) (p : Pay) (m m' : XmlMap)
    (hm : (SignVerify x p m).2.1 = true) (hs : m'.get "sign" = m.get "sign")
    (hagree : ∀ k, k ≠ "sign" → m'.get k = m.get k) :
    (SignVerify x p m').2.1 = true := by
  rw [SignVerify_eq] at hm
  have hgen : GenerateMapSign x (m'.delete "sign") p.SignType p.Key =
      GenerateMapSign x (m.delete "sign") p.SignType p.Key := by
    rw [GenerateMapSign_delete_sign, GenerateMapSign_delete_sign]
    exact GenerateMapSign_congr x m' m _ _ hagree
  rw [SignVerify_eq, hgen, hs]
  exact hm

/-- The unseen mutation at a concrete input: a field with an empty value is added. -/
theorem SignVerify_accepts_same_reads_witness :
    (SignVerify sampleExt samplePay [("a", "1"), ("sign", "A=1&&KEY=K1")]).2.1 = true ∧
      (SignVerify sampleExt samplePay
        [("b", ""), ("a", "1"), ("sign", "A=1&&KEY=K1")]).2.1 = true :=
  ⟨by decide,
    SignVerify_accepts_same_reads sampleExt samplePay [("a", "1"), ("sign", "A=1&&KEY=K1")]
      [("b", ""), ("a", "1"), ("sign", "A=1&&KEY=K1")] (by decide) (by decide)
      (by
        intro k hk
        by_cases hb : k = "b"
        · subst hb; rfl
        · have hnb : (k == "b") = false := by simpa using hb
          simp [XmlMap.get, List.lookup_cons, hnb])⟩

/-- A delimiter inside a value is not seen either, whatever the hash is: the maps
`a = "1"`, `b = "2"` and `a = "1&b=2"` have the same canonical text, so `SignVerify`
gives the same verdict on both under any `sign`. -/
theorem SignVerify_delimiter_collision (x : Ext) (p : Pay) (s : String) :
    (SignVerify x p [("a", "1"), ("b", "2"), ("sign", s)]).2 =
      (SignVerify x p [("a", "1&b=2"), ("sign", s)]).2 :=
  rfl

/-! ## The operations and their guards -/

/-- C9, evaluated at the failing input: with no TLS material configured,
`Gettransferinfo("P1")` raises no configuration error; it fills and signs the request,
hands it to the TLS transport with a `nil` configuration and returns the verified
reply. -/
theorem Gettransferinfo_without_tls :
    samplePay.tlsConfig = none ∧
      Gettransferinfo sampleExt samplePay "P1" =
        ([("sign", "APPID=A1&MCH_ID=M1&NONCE_STR=XXXXXXXXXXXXXXXXXXXXXXXX&PARTNER_TRADE_NO=P1&&KEY=K1"),
          ("nonce_str", "xxxxxxxxxxxxxxxxxxxxxxxx"), ("mch_id", "M1"), ("appid", "A1"),
          ("partner_trade_no", "P1")], .ok sampleReply) :=
  ⟨rfl, rfl⟩

/-- `Refund` on a client without TLS material fails with the configuration error for
every request, with the request map untouched and whatever the collaborators are. -/
theorem Refund_requires_tls (x : Ext) (p : Pay) (req : XmlMap) (h : p.tlsConfig = none) :
    Refund x p req = (req, .error (.errorf "before using refund must SetTLS" [])) := by
  simp [Refund, h]

/-- The TLS guard of `Refund` at a concrete input. -/
theorem Refund_requires_tls_witness :
    samplePay.tlsConfig = none ∧
      Refund sampleExt samplePay [("transaction_id", "T1"), ("total_fee", "100")] =
        ([("transaction_id", "T1"), ("total_fee", "100")],
          .error (.errorf "before using refund must SetTLS" [])) :=
  ⟨rfl, Refund_requires_tls sampleExt samplePay _ rfl⟩

/-- `PromotionTransfers` on a client without TLS material fails with the configuration
error for every request, with the request map untouched and whatever the collaborators
are. -/
theorem PromotionTransfers_requires_tls (x : Ext) (p : Pay) (req : XmlMap)
    (h : p.tlsConfig = none) :
    PromotionTransfers x p req =
      (req, .error (.errorf "before using refund must SetTLS" [])) := by
  simp [PromotionTransfers, h]

/-- The TLS guard of `PromotionTransfers` at a concrete input. -/
theorem PromotionTransfers_requires_tls_witness :
    samplePay.tlsConfig = none ∧
      PromotionTransfers sampleExt samplePay [("partner_trade_no", "P1")] =
        ([("partner_trade_no", "P1")],
          .error (.errorf "before using refund must SetTLS" [])) :=
  ⟨rfl, PromotionTransfers_requires_tls sampleExt samplePay _ rfl⟩

/-- C10 as stated fails: on a client with TLS material, a refund request with a
`transaction_id` and a `total_fee` and no refund fee is answered with the
missing-required-parameter error. -/
theorem Refund_check_triggers :
    samplePayTLS.tlsConfig ≠ none ∧
      XmlMap.get [("transaction_id", "T1"), ("total_fee", "100")] "total_fee" ≠ "" ∧
      XmlMap.get [("transaction_id", "T1"), ("total_fee", "100")] "transaction_id" ≠ "" ∧
      (Refund sampleExt samplePayTLS [("transaction_id", "T1"), ("total_fee", "100")]).2 =
        .error (.errorf "缺少必传参数" []) :=
  ⟨by decide, by decide, by decide, rfl⟩

/-- C10 as amended: on a client with TLS material, every request that carries no refund
fee (no non-empty value under `refund_fee`, nor under the tab-terminated key the check
reads) is answered with the missing-required-parameter error, with the request map
untouched, whatever its other fields and the collaborators are. -/
theorem Refund_rejects_missing_refund_fee (x : Ext) (p : Pay) (req : XmlMap)
    (htls : p.tlsConfig ≠ none)
    (hfee : ∀ k, k = "refund_fee" ∨ k = "refund_fee\t" → req.get k = "") :
    Refund x p req = (req, .error (.errorf "缺少必传参数" [])) := by
  have h1 : req.get "refund_fee\t" = "" := hfee _ (Or.inr rfl)
  have h2 : p.tlsConfig.isNone = false := by
    cases hp : p.tlsConfig with
    | none => exact absurd hp htls
    | some _ => rfl
  simp [Refund, h1, h2]

/-- C10 as amended, at a concrete input. -/
theorem Refund_rejects_missing_refund_fee_witness :
    samplePayTLS.tlsConfig ≠ none ∧
      (∀ k, k = "refund_fee" ∨ k = "refund_fee\t" →
        XmlMap.get [("out_trade_no", "T1001"), ("total_fee", "100")] k = "") ∧
      Refund sampleExt samplePayTLS [("out_trade_no", "T1001"), ("total_fee", "100")] =
        ([("out_trade_no", "T1001"), ("total_fee", "100")],
          .error (.errorf "缺少必传参数" [])) :=
  ⟨by decide, by rintro k (rfl | rfl) <;> rfl,
    Refund_rejects_missing_refund_fee sampleExt samplePayTLS _ (by decide)
      (by rintro k (rfl | rfl) <;> rfl)⟩

end WechatPay
